import Mathlib

/-!
# libavutil/file_open.c

A shallow embedding of `win32_open`, `avpriv_open` and `av_fopen_utf8`, and
theorems about the flag derivations and the call sequences they perform.

* A C `int` or `DWORD` flag word is the `Nat` of its 32-bit pattern; `&` and
  `|` are `&&&` and `|||`, and `~` is `int_not`, the complement within 32
  bits. Return values (descriptors, handles, pointers, counts) are `Int`.
* Every function of the C library, the Windows API, or another FFmpeg file
  is an external call: its return value and the `errno` it leaves come from
  an environment `Env`, and the call with its return value is appended to
  the trace of the state.
* The constants that come from system headers are parameters (`Platform`,
  `WinAPI`); `windows`, `linux` and `posix_legacy` hold concrete values.
-/

namespace FileOpen

/-! ## Platform parameters -/

/-- Constants of `<windows.h>` used by `win32_open`. -/
structure WinAPI where
  GENERIC_READ : Nat
  GENERIC_WRITE : Nat
  FILE_SHARE_READ : Nat
  FILE_SHARE_WRITE : Nat
  FILE_SHARE_DELETE : Nat
  CREATE_NEW : Nat
  CREATE_ALWAYS : Nat
  OPEN_EXISTING : Nat
  OPEN_ALWAYS : Nat
  TRUNCATE_EXISTING : Nat
  CP_UTF8 : Nat
  MB_ERR_INVALID_CHARS : Nat
  sizeof_wchar_t : Int
  deriving DecidableEq, Repr

/-- Build configuration and the constants of `<fcntl.h>` and `<errno.h>`.
`win32` is `some W` when `defined(_WIN32) && !defined(__MINGW32CE__)`;
`O_BINARY` and `O_CLOEXEC` are `none` when the macro is not defined. -/
structure Platform where
  win32 : Option WinAPI
  HAVE_FCNTL : Bool
  O_RDONLY : Nat
  O_WRONLY : Nat
  O_RDWR : Nat
  O_CREAT : Nat
  O_TRUNC : Nat
  O_APPEND : Nat
  O_EXCL : Nat
  O_BINARY : Option Nat
  O_CLOEXEC : Option Nat
  F_SETFD : Int
  FD_CLOEXEC : Int
  EINVAL : Int
  ENOMEM : Int
  deriving DecidableEq, Repr

/-- Values of the Windows SDK headers (`winnt.h`, `fileapi.h`, `winnls.h`). -/
def winapi : WinAPI where
  GENERIC_READ := 0x80000000
  GENERIC_WRITE := 0x40000000
  FILE_SHARE_READ := 1
  FILE_SHARE_WRITE := 2
  FILE_SHARE_DELETE := 4
  CREATE_NEW := 1
  CREATE_ALWAYS := 2
  OPEN_EXISTING := 3
  OPEN_ALWAYS := 4
  TRUNCATE_EXISTING := 5
  CP_UTF8 := 65001
  MB_ERR_INVALID_CHARS := 8
  sizeof_wchar_t := 2

/-- Windows build: the C runtime's `<fcntl.h>` values, no `O_CLOEXEC`, no
`fcntl`. `F_SETFD` and `FD_CLOEXEC` are unused there. -/
def windows : Platform where
  win32 := some winapi
  HAVE_FCNTL := false
  O_RDONLY := 0
  O_WRONLY := 1
  O_RDWR := 2
  O_CREAT := 0x100
  O_TRUNC := 0x200
  O_APPEND := 8
  O_EXCL := 0x400
  O_BINARY := some 0x8000
  O_CLOEXEC := none
  F_SETFD := 2
  FD_CLOEXEC := 1
  EINVAL := 22
  ENOMEM := 12

/-- Linux build (x86 values): `O_CLOEXEC` and `fcntl` both present, no
`O_BINARY`. -/
def linux : Platform where
  win32 := none
  HAVE_FCNTL := true
  O_RDONLY := 0
  O_WRONLY := 1
  O_RDWR := 2
  O_CREAT := 0x40
  O_TRUNC := 0x200
  O_APPEND := 0x400
  O_EXCL := 0x80
  O_BINARY := none
  O_CLOEXEC := some 0x80000
  F_SETFD := 2
  FD_CLOEXEC := 1
  EINVAL := 22
  ENOMEM := 12

/-- A POSIX build whose headers predate `O_CLOEXEC`: close-on-exec can only
be set through `fcntl`. -/
def posix_legacy : Platform :=
  { linux with O_CLOEXEC := none }

/-! ## External calls, state and environment -/

/-- The external calls made by the three functions, with their arguments.
Strings passed by content are byte lists without the terminating NUL;
pointers and handles are `Int` (`NULL` is `0`). -/
inductive Call where
  | MultiByteToWideChar (CodePage dwFlags : Nat) (src : List Nat) (cbMultiByte : Int)
      (dst : Int) (cchWideChar : Int)
  | av_mallocz (size : Int)
  | av_freep (ptr : Int)
  | CreateFileW (filename_w : Int) (access share : Nat) (security : Int) (creation : Nat)
      (attrs : Nat) (template : Int)
  | CreateFileA (filename : List Nat) (access share : Nat) (security : Int) (creation : Nat)
      (attrs : Nat) (template : Int)
  | _open_osfhandle (handle : Int) (oflag : Nat)
  | CloseHandle (handle : Int)
  | sys_open (filename : List Nat) (flags : Nat) (mode : Nat)
  | fcntl (fd : Int) (cmd : Int) (arg : Int)
  | av_log (level : Int) (msg : String)
  | fdopen (fd : Int) (mode : List Char)
  deriving DecidableEq, Repr

/-- Process state seen by the code: `errno` and the calls made so far, each
with the value it returned. -/
structure State where
  errno : Int
  trace : List (Call × Int)
  deriving DecidableEq, Repr

/-- The world outside the file: for a call made in a given state, the value
it returns and the `errno` it leaves. -/
structure Env where
  respond : State → Call → Int × Int

/-- Perform one external call. -/
def sys (env : Env) (s : State) (c : Call) : Int × State :=
  let r := env.respond s c
  (r.1, { errno := r.2, trace := s.trace ++ [(c, r.1)] })

/-- Level `AV_LOG_DEBUG` of `libavutil/log.h`. -/
def AV_LOG_DEBUG : Int := 48

/-- The null pointer. -/
def NULL : Int := 0

/-- The operator `~` on a 32-bit `int`, on bit patterns. -/
def int_not (x : Nat) : Nat := x ^^^ 0xFFFFFFFF

/-! ## `win32_open` (lines 41-88) -/

/-- Lines 49-51. -/
def flags_access (P : Platform) (W : WinAPI) (oflag : Nat) : Nat :=
  if oflag &&& P.O_RDONLY ≠ 0 then W.GENERIC_READ
  else if oflag &&& P.O_WRONLY ≠ 0 then W.GENERIC_WRITE
  else W.GENERIC_READ ||| W.GENERIC_READ

/-- Line 53. -/
def flags_share (W : WinAPI) : Nat :=
  W.FILE_SHARE_READ ||| W.FILE_SHARE_WRITE ||| W.FILE_SHARE_DELETE

/-- Lines 55-59. -/
def create_type (P : Platform) (W : WinAPI) (oflag : Nat) : Nat :=
  if oflag &&& (P.O_CREAT ||| P.O_TRUNC) ≠ 0 then W.CREATE_ALWAYS
  else if oflag &&& (P.O_CREAT ||| P.O_EXCL) ≠ 0 then W.CREATE_NEW
  else if oflag &&& P.O_TRUNC ≠ 0 then W.TRUNCATE_EXISTING
  else if oflag &&& P.O_CREAT ≠ 0 then W.OPEN_ALWAYS
  else W.OPEN_EXISTING

/-- Lines 81-87, the code at label `fallback`. -/
def win32_open_fallback (P : Platform) (W : WinAPI) (env : Env) (s : State)
    (filename_utf8 : List Nat) (oflag : Nat) : Int × State :=
  let h := sys env s (.CreateFileA filename_utf8 (flags_access P W oflag) (flags_share W) 0
    (create_type P W oflag) 0 0)
  let fd := sys env h.2 (._open_osfhandle h.1 oflag)
  if fd.1 = -1 then (fd.1, (sys env fd.2 (.CloseHandle h.1)).2) else fd

/-- Lines 70-76, the wide-character attempt once the buffer `filename_w` of
`num_chars` wide characters has been allocated. -/
def win32_open_wide (P : Platform) (W : WinAPI) (env : Env) (s : State)
    (filename_utf8 : List Nat) (oflag : Nat) (filename_w num_chars : Int) : Int × State :=
  let c := sys env s (.MultiByteToWideChar W.CP_UTF8 0 filename_utf8 (-1) filename_w num_chars)
  let h := sys env c.2 (.CreateFileW filename_w (flags_access P W oflag) (flags_share W) 0
    (create_type P W oflag) 0 0)
  let f := sys env h.2 (.av_freep filename_w)
  let fd := sys env f.2 (._open_osfhandle h.1 oflag)
  if fd.1 = -1 then (fd.1, (sys env fd.2 (.CloseHandle h.1)).2) else fd

/-- Lines 41-88. `pmode` is not used by the C function. -/
def win32_open (P : Platform) (W : WinAPI) (env : Env) (s : State)
    (filename_utf8 : List Nat) (oflag : Nat) (_pmode : Nat) : Int × State :=
  let n := sys env s (.MultiByteToWideChar W.CP_UTF8 W.MB_ERR_INVALID_CHARS filename_utf8 (-1)
    NULL 0)
  if n.1 ≤ 0 then win32_open_fallback P W env n.2 filename_utf8 oflag
  else
    let a := sys env n.2 (.av_mallocz (W.sizeof_wchar_t * n.1))
    if a.1 = NULL then (-1, { a.2 with errno := P.ENOMEM })
    else
      let w := win32_open_wide P W env a.2 filename_utf8 oflag a.1 n.1
      if w.1 ≠ -1 ∨ oflag &&& P.O_CREAT ≠ 0 then w
      else win32_open_fallback P W env w.2 filename_utf8 oflag

/-! ## `avpriv_open` (lines 92-116) -/

/-- The `open` of line 107: `win32_open` after `#define open win32_open`
(line 89), the system call otherwise. -/
def descriptor_open (P : Platform) (env : Env) (s : State)
    (filename : List Nat) (flags : Nat) (mode : Nat) : Int × State :=
  match P.win32 with
  | some W => win32_open P W env s filename flags mode
  | none => sys env s (.sys_open filename flags mode)

/-- Lines 103-105. -/
def cloexec_flags (P : Platform) (flags : Nat) : Nat :=
  match P.O_CLOEXEC with
  | some c => flags ||| c
  | none => flags

/-- Lines 108-113, applied to the result `r` of `open`. -/
def set_cloexec (P : Platform) (env : Env) (r : Int × State) : Int × State :=
  if P.HAVE_FCNTL then
    if r.1 ≠ -1 then
      let f := sys env r.2 (.fcntl r.1 P.F_SETFD P.FD_CLOEXEC)
      if f.1 = -1 then
        (r.1, (sys env f.2 (.av_log AV_LOG_DEBUG "Failed to set close on exec\n")).2)
      else (r.1, f.2)
    else r
  else r

/-- Lines 92-116. `va` is the first variadic argument, read as
`unsigned int` only when `O_CREAT` is set. -/
def avpriv_open (P : Platform) (env : Env) (s : State)
    (filename : List Nat) (flags : Nat) (va : Nat) : Int × State :=
  let mode : Nat := if flags &&& P.O_CREAT ≠ 0 then va % 2 ^ 32 else 0
  let flags := cloexec_flags P flags
  let fd := descriptor_open P env s filename flags mode
  set_cloexec P env fd

/-! ## `av_fopen_utf8` (lines 118-150) -/

/-- Lines 132-145: the loop over the characters after the first. The list
holds the bytes from `m` on; reading past its end reads the terminating
NUL. `none` is the exit `errno = EINVAL; return NULL`. -/
def mode_loop (P : Platform) (access : Nat) : List Char → Option Nat
  | [] => some access
  | c :: m =>
    if c = '\x00' then some access
    else if c = '+' then
      mode_loop P ((access &&& int_not (P.O_RDONLY ||| P.O_WRONLY)) ||| P.O_RDWR) m
    else if c = 'b' then
      match P.O_BINARY with
      | some b => mode_loop P (access ||| b) m
      | none => mode_loop P access m
    else none

/-- Lines 124-145: the flags derived from the mode string, `none` on the
exits `errno = EINVAL; return NULL`. -/
def mode_access (P : Platform) : List Char → Option Nat
  | [] => none
  | c :: m =>
    if c = 'r' then mode_loop P P.O_RDONLY m
    else if c = 'w' then mode_loop P (P.O_CREAT ||| P.O_WRONLY ||| P.O_TRUNC) m
    else if c = 'a' then mode_loop P (P.O_CREAT ||| P.O_WRONLY ||| P.O_APPEND) m
    else none

/-- Lines 146-149, given the flags. -/
def fopen_with (P : Platform) (env : Env) (s : State)
    (path : List Nat) (mode : List Char) (access : Nat) : Int × State :=
  let fd := avpriv_open P env s path access 0o666
  if fd.1 = -1 then (NULL, fd.2)
  else sys env fd.2 (.fdopen fd.1 mode)

/-- Lines 118-150. The result is the `FILE *` as an `Int`, `NULL` on failure. -/
def av_fopen_utf8 (P : Platform) (env : Env) (s : State)
    (path : List Nat) (mode : List Char) : Int × State :=
  match mode_access P mode with
  | none => (NULL, { s with errno := P.EINVAL })
  | some access => fopen_with P env s path mode access

/-! ## Reference definitions, following the specification's words -/

/-- The flag word the specification gives for a valid mode string with first
character `c` and modifiers `tail`: the base access of `c`; if `+` occurs,
the read-only and write-only bits cleared and read-write set; if `b` occurs
and the platform has a binary flag, that flag added. -/
def mode_flags_spec (P : Platform) (c : Char) (tail : List Char) : Nat :=
  let base :=
    if c = 'r' then P.O_RDONLY
    else if c = 'w' then P.O_CREAT ||| P.O_WRONLY ||| P.O_TRUNC
    else P.O_CREAT ||| P.O_WRONLY ||| P.O_APPEND
  let plus :=
    if '+' ∈ tail then (base &&& int_not (P.O_RDONLY ||| P.O_WRONLY)) ||| P.O_RDWR else base
  match P.O_BINARY with
  | some b => if 'b' ∈ tail then plus ||| b else plus
  | none => plus

/-- The creation disposition the specification gives, by precedence: create
and truncate; else create and exclusive; else truncate; else create; else
open existing. -/
def create_type_spec (P : Platform) (W : WinAPI) (oflag : Nat) : Nat :=
  if oflag &&& P.O_CREAT ≠ 0 ∧ oflag &&& P.O_TRUNC ≠ 0 then W.CREATE_ALWAYS
  else if oflag &&& P.O_CREAT ≠ 0 ∧ oflag &&& P.O_EXCL ≠ 0 then W.CREATE_NEW
  else if oflag &&& P.O_TRUNC ≠ 0 then W.TRUNCATE_EXISTING
  else if oflag &&& P.O_CREAT ≠ 0 then W.OPEN_ALWAYS
  else W.OPEN_EXISTING

/-- The access rights the specification gives: read for a read-only access
mode, write for a write-only one, read and write otherwise. The access mode
is the part of the flags under `O_RDONLY | O_WRONLY | O_RDWR`. -/
def flags_access_spec (P : Platform) (W : WinAPI) (oflag : Nat) : Nat :=
  let accmode := oflag &&& (P.O_RDONLY ||| P.O_WRONLY ||| P.O_RDWR)
  if accmode = P.O_RDONLY then W.GENERIC_READ
  else if accmode = P.O_WRONLY then W.GENERIC_WRITE
  else W.GENERIC_READ ||| W.GENERIC_WRITE

/-- The binary flag, where defined, is a bit pattern that `~(O_RDONLY |
O_WRONLY)` leaves alone: it shares no bit with the two access-mode constants
and fits the 32-bit `int`. -/
def binary_flag_separate (P : Platform) : Prop :=
  ∀ b, P.O_BINARY = some b → b &&& int_not (P.O_RDONLY ||| P.O_WRONLY) = b

/-! ## Observations on traces -/

/-- Whether a call is the narrow-character create call. -/
def is_CreateFileA : Call → Bool
  | .CreateFileA _ _ _ _ _ _ _ => true
  | _ => false

/-- Number of narrow-character create calls among the events. -/
def narrow_attempts (events : List (Call × Int)) : Nat :=
  events.countP (fun e => is_CreateFileA e.1)

/-- The events a run added to the trace of the state it started from. -/
def new_events (s : State) (r : Int × State) : List (Call × Int) :=
  r.2.trace.drop s.trace.length

/-- Whether a call is `fcntl`. -/
def is_fcntl : Call → Bool
  | .fcntl _ _ _ => true
  | _ => false

/-- Whether the flag word holds `O_CLOEXEC`; never where it is not defined. -/
def has_cloexec (P : Platform) (flags : Nat) : Bool :=
  match P.O_CLOEXEC with
  | some c => decide (flags &&& c = c)
  | none => false

/-- Whether the event sets close-on-exec on descriptor `fd`, by the meaning
the platform gives to the calls the code uses for it (this is a model of the
operating system, not of the source). A platform that defines `O_CLOEXEC`
supports it at open time: the call that creates the descriptor, the system
`open` or on Windows `_open_osfhandle`, sets close-on-exec when its flags hold
`O_CLOEXEC`. A call `fcntl(fd, F_SETFD, FD_CLOEXEC)` sets it when it returns
something other than `-1`. -/
def sets_close_on_exec (P : Platform) (fd : Int) (e : Call × Int) : Bool :=
  match e.1 with
  | .sys_open _ flags _ => decide (e.2 = fd) && has_cloexec P flags
  | ._open_osfhandle _ oflag => decide (e.2 = fd) && has_cloexec P oflag
  | .fcntl d cmd arg =>
    decide (d = fd) && decide (cmd = P.F_SETFD) && decide (arg = P.FD_CLOEXEC) &&
      decide (e.2 ≠ -1)
  | _ => false

/-- Close-on-exec status of descriptor `fd` after the events: some event set
it. -/
def close_on_exec_set (P : Platform) (events : List (Call × Int)) (fd : Int) : Bool :=
  events.any (sets_close_on_exec P fd)

/-! ## Concrete environments and inputs -/

/-- An environment in which every call returns `v` and leaves `errno` alone. -/
def env_const (v : Int) : Env where
  respond := fun s _ => (v, s.errno)

/-- An environment in which the conversion gives 2 wide characters, the
allocation gives the pointer 1000, and both create calls and both
adaptations give `-1`. -/
def env_wide_fails : Env where
  respond := fun s c =>
    match c with
    | .MultiByteToWideChar _ _ _ _ _ _ => (2, s.errno)
    | .av_mallocz _ => (1000, s.errno)
    | .CreateFileW _ _ _ _ _ _ _ => (-1, 2)
    | .CreateFileA _ _ _ _ _ _ _ => (-1, 2)
    | ._open_osfhandle _ _ => (-1, 9)
    | _ => (0, s.errno)

/-- An environment in which the open returns the descriptor 3 and `fcntl`
returns `-1`. -/
def env_fcntl_fails : Env where
  respond := fun s c =>
    match c with
    | .sys_open _ _ _ => (3, s.errno)
    | .fcntl _ _ _ => (-1, 9)
    | _ => (0, s.errno)

/-- The state before the first call. -/
def s0 : State where
  errno := 0
  trace := []

/-- The bytes of the path `x`. -/
def path_x : List Nat := [120]

/-! ## Lemmas on bit patterns -/

theorem or_idem_right (a b : Nat) : (a ||| b) ||| b = a ||| b := by
  apply Nat.eq_of_testBit_eq
  intro i
  simp only [Nat.testBit_or]
  cases a.testBit i <;> cases b.testBit i <;> rfl

theorem clear_set_idem (a n r : Nat) : (((a &&& n) ||| r) &&& n) ||| r = (a &&& n) ||| r := by
  apply Nat.eq_of_testBit_eq
  intro i
  simp only [Nat.testBit_or, Nat.testBit_and]
  cases a.testBit i <;> cases n.testBit i <;> cases r.testBit i <;> rfl

theorem clear_set_or_comm (a n r b : Nat) (hb : b &&& n = b) :
    ((a ||| b) &&& n) ||| r = ((a &&& n) ||| r) ||| b := by
  have hbit : ∀ i, b.testBit i = (b.testBit i && n.testBit i) := by
    intro i
    rw [← Nat.testBit_and, hb]
  apply Nat.eq_of_testBit_eq
  intro i
  simp only [Nat.testBit_or, Nat.testBit_and]
  have h := hbit i
  revert h
  cases a.testBit i <;> cases n.testBit i <;> cases r.testBit i <;> cases b.testBit i <;> simp

theorem or_eq_zero_left (a b : Nat) (h : a ||| b = 0) : a = 0 := by
  apply Nat.eq_of_testBit_eq
  intro i
  have hi := congrArg (fun x => Nat.testBit x i) h
  simp only [Nat.testBit_or, Nat.zero_testBit, Bool.or_eq_false_iff] at hi
  simp [hi.1]

theorem or_eq_zero_right (a b : Nat) (h : a ||| b = 0) : b = 0 := by
  apply Nat.eq_of_testBit_eq
  intro i
  have hi := congrArg (fun x => Nat.testBit x i) h
  simp only [Nat.testBit_or, Nat.zero_testBit, Bool.or_eq_false_iff] at hi
  simp [hi.2]

theorem or_and_self_right (a c : Nat) : (a ||| c) &&& c = c := by
  apply Nat.eq_of_testBit_eq
  intro i
  simp only [Nat.testBit_or, Nat.testBit_and]
  cases a.testBit i <;> cases c.testBit i <;> rfl

/-! ## The mode string (`av_fopen_utf8`, lines 124-146) -/

/-- The loop returns the flags changed once for `+` if it occurs and once for
`b` if it occurs, whatever the order and the number of occurrences. -/
theorem mode_loop_eq (P : Platform) (hb : binary_flag_separate P) (tail : List Char)
    (ht : ∀ x ∈ tail, x = '+' ∨ x = 'b') (access : Nat) :
    mode_loop P access tail = some
      (let plus :=
        if '+' ∈ tail then (access &&& int_not (P.O_RDONLY ||| P.O_WRONLY)) ||| P.O_RDWR
        else access
       match P.O_BINARY with
       | some b => if 'b' ∈ tail then plus ||| b else plus
       | none => plus) := by
  induction tail generalizing access with
  | nil => cases hB : P.O_BINARY <;> simp [mode_loop]
  | cons x t ih =>
    have ht2 : ∀ y ∈ t, y = '+' ∨ y = 'b' := fun y hy => ht y (List.mem_cons_of_mem _ hy)
    rcases ht x (List.mem_cons_self _ _) with hx | hx
    · subst hx
      have hne : ¬ ('+' = '\x00') := by decide
      have hpb : ¬ ('b' = '+') := by decide
      rw [mode_loop, if_neg hne, if_pos rfl, ih ht2]
      cases hB : P.O_BINARY with
      | none =>
        by_cases hp : '+' ∈ t <;> simp [hp, clear_set_idem]
      | some b =>
        by_cases hp : '+' ∈ t <;> by_cases hq : 'b' ∈ t <;> simp [hp, hq, hpb, clear_set_idem]
    · subst hx
      have hne : ¬ ('b' = '\x00') := by decide
      have hbp : ¬ ('b' = '+') := by decide
      have hpb : ¬ ('+' = 'b') := by decide
      rw [mode_loop, if_neg hne, if_neg hbp, if_pos rfl]
      cases hB : P.O_BINARY with
      | none =>
        simp only [ih ht2, hB]
        by_cases hp : '+' ∈ t <;> simp [hp, hpb]
      | some b =>
        simp only [ih ht2, hB]
        have hsep := hb b hB
        by_cases hp : '+' ∈ t <;> by_cases hq : 'b' ∈ t <;>
          simp [hp, hq, hpb, or_idem_right, clear_set_or_comm _ _ _ _ hsep]

/-- A character other than `+` and `b` before the NUL ends the loop with
`EINVAL`. -/
theorem mode_loop_invalid (P : Platform) (m : List Char) (hnul : '\x00' ∉ m)
    (hbad : ∃ c ∈ m, c ≠ '+' ∧ c ≠ 'b') (access : Nat) : mode_loop P access m = none := by
  induction m generalizing access with
  | nil => simp at hbad
  | cons x t ih =>
    have hx0 : ¬ (x = '\x00') := fun h => hnul (by simp [h])
    have hnul2 : '\x00' ∉ t := fun h => hnul (List.mem_cons_of_mem _ h)
    rw [mode_loop, if_neg hx0]
    by_cases hp : x = '+'
    · rw [if_pos hp]
      apply ih hnul2
      obtain ⟨c, hc, h1, h2⟩ := hbad
      rcases List.mem_cons.mp hc with h | h
      · exact absurd (h.trans hp) h1
      · exact ⟨c, h, h1, h2⟩
    · rw [if_neg hp]
      by_cases hq : x = 'b'
      · rw [if_pos hq]
        have hbad2 : ∃ c ∈ t, c ≠ '+' ∧ c ≠ 'b' := by
          obtain ⟨c, hc, h1, h2⟩ := hbad
          rcases List.mem_cons.mp hc with h | h
          · exact absurd (h.trans hq) h2
          · exact ⟨c, h, h1, h2⟩
        cases P.O_BINARY <;> exact ih hnul2 hbad2 _
      · rw [if_neg hq]

/-- C3: a mode string whose first character is not `r`, `w` or `a` (the empty
string included), or that has a character other than `+` and `b` after the
first, makes `av_fopen_utf8` return `NULL` with `errno` set to `EINVAL`, and
the trace is unchanged: no external call is made, neither the open of
`avpriv_open` nor `fdopen`. The list is the content of the C string, so it
holds no NUL. -/
theorem av_fopen_utf8_invalid_mode (P : Platform) (env : Env) (s : State) (path : List Nat)
    (mode : List Char) (hnul : '\x00' ∉ mode)
    (hbad : (∀ c ∈ mode.head?, c ≠ 'r' ∧ c ≠ 'w' ∧ c ≠ 'a') ∨
      ∃ c ∈ mode.tail, c ≠ '+' ∧ c ≠ 'b') :
    av_fopen_utf8 P env s path mode = (NULL, { errno := P.EINVAL, trace := s.trace }) := by
  have hnone : mode_access P mode = none := by
    cases mode with
    | nil => rfl
    | cons c m =>
      have hnul2 : '\x00' ∉ m := fun h => hnul (List.mem_cons_of_mem _ h)
      rcases hbad with h | h
      · obtain ⟨h1, h2, h3⟩ := h c (by simp)
        simp [mode_access, h1, h2, h3]
      · have hl : ∀ a, mode_loop P a m = none := mode_loop_invalid P m hnul2 h
        simp only [mode_access, hl]
        split_ifs <;> rfl
  simp [av_fopen_utf8, hnone]

/-- Witness for C3: the mode string `q` on Windows. -/
theorem av_fopen_utf8_invalid_mode_witness :
    av_fopen_utf8 windows (env_const 3) s0 path_x ['q'] = (NULL, { errno := 22, trace := [] }) :=
  av_fopen_utf8_invalid_mode windows (env_const 3) s0 path_x ['q'] (by decide)
    (Or.inl (by decide))

/-- C4: for a valid mode string `c :: tail` the flags derived are the
reference value `mode_flags_spec`, and they are the flags `av_fopen_utf8`
hands to `avpriv_open` (with 0666), whose descriptor goes to `fdopen`. -/
theorem av_fopen_utf8_flags (P : Platform) (env : Env) (s : State) (path : List Nat)
    (c : Char) (tail : List Char) (hc : c = 'r' ∨ c = 'w' ∨ c = 'a')
    (ht : ∀ x ∈ tail, x = '+' ∨ x = 'b') (hb : binary_flag_separate P) :
    mode_access P (c :: tail) = some (mode_flags_spec P c tail) ∧
    av_fopen_utf8 P env s path (c :: tail) =
      (let fd := avpriv_open P env s path (mode_flags_spec P c tail) 0o666
       if fd.1 = -1 then (NULL, fd.2) else sys env fd.2 (.fdopen fd.1 (c :: tail))) := by
  have hacc : mode_access P (c :: tail) = some (mode_flags_spec P c tail) := by
    have hwr : ¬ ('w' = 'r') := by decide
    have har : ¬ ('a' = 'r') := by decide
    have haw : ¬ ('a' = 'w') := by decide
    rcases hc with h | h | h <;> subst h <;>
      simp only [mode_access, mode_flags_spec, mode_loop_eq P hb tail ht, if_pos, if_neg,
        hwr, har, haw, if_true, if_false]
  refine ⟨hacc, ?_⟩
  simp only [av_fopen_utf8, hacc, fopen_with]

/-- Witness for C4: the mode string `w+b` on Windows gives
`O_CREAT | O_TRUNC | O_RDWR | O_BINARY`. -/
theorem av_fopen_utf8_flags_witness :
    binary_flag_separate windows ∧
    mode_flags_spec windows 'w' ['+', 'b'] = 0x8302 ∧
    mode_access windows ['w', '+', 'b'] = some (mode_flags_spec windows 'w' ['+', 'b']) :=
  ⟨by intro b h; cases h; decide, by decide,
   (av_fopen_utf8_flags windows (env_const 3) s0 path_x 'w' ['+', 'b'] (by decide) (by decide)
      (by intro b h; cases h; decide)).1⟩

/-- C5: for a leading character in `r`, `w`, `a` and two modifier tails over
`+` and `b` that are permutations of each other, or more generally hold the
same set of characters, the flags derived are the same (and are derived: the
result is not the `EINVAL` exit). -/
theorem mode_access_order_independent (P : Platform) (c : Char) (t1 t2 : List Char)
    (hc : c = 'r' ∨ c = 'w' ∨ c = 'a')
    (h1 : ∀ x ∈ t1, x = '+' ∨ x = 'b') (h2 : ∀ x ∈ t2, x = '+' ∨ x = 'b')
    (hsame : t1.Perm t2 ∨ ∀ x, x ∈ t1 ↔ x ∈ t2) (hb : binary_flag_separate P) :
    mode_access P (c :: t1) = mode_access P (c :: t2) ∧
    (mode_access P (c :: t1)).isSome = true := by
  have hmem : ∀ x, x ∈ t1 ↔ x ∈ t2 := by
    rcases hsame with h | h
    · exact fun x => h.mem_iff
    · exact h
  have hp : ('+' ∈ t1) = ('+' ∈ t2) := propext (hmem '+')
  have hq : ('b' ∈ t1) = ('b' ∈ t2) := propext (hmem 'b')
  have e1 := fun a => mode_loop_eq P hb t1 h1 a
  have e2 := fun a => mode_loop_eq P hb t2 h2 a
  simp only [hp, hq] at e1
  constructor
  · simp only [mode_access, e1, e2]
  · rcases hc with h | h | h <;> subst h <;> simp [mode_access, e1]

/-- Witness for C5: `r+b` and `rb+` (a permutation), `r++` and `r+` (the
same set), on Windows. -/
theorem mode_access_order_independent_witness :
    (mode_access windows ['r', '+', 'b'] = mode_access windows ['r', 'b', '+'] ∧
      (mode_access windows ['r', '+', 'b']).isSome = true) ∧
    (mode_access windows ['r', '+', '+'] = mode_access windows ['r', '+'] ∧
      (mode_access windows ['r', '+', '+']).isSome = true) :=
  ⟨mode_access_order_independent windows 'r' ['+', 'b'] ['b', '+'] (by decide) (by decide)
      (by decide) (Or.inl (List.Perm.swap 'b' '+' [])) (by intro b h; cases h; decide),
   mode_access_order_independent windows 'r' ['+', '+'] ['+'] (by decide) (by decide)
      (by decide) (Or.inr (fun x => by simp)) (by intro b h; cases h; decide)⟩

/-! ## The flag derivations of `win32_open` (lines 49-59) -/

/-- What lines 55-59 compute on every platform: `CREATE_ALWAYS` as soon as
one of `O_CREAT`, `O_TRUNC` is set, else `CREATE_NEW` if `O_EXCL` is set,
else `OPEN_EXISTING`. The branches to `TRUNCATE_EXISTING` and `OPEN_ALWAYS`
are never taken. -/
theorem create_type_eq (P : Platform) (W : WinAPI) (oflag : Nat) :
    create_type P W oflag =
      if oflag &&& P.O_CREAT ≠ 0 ∨ oflag &&& P.O_TRUNC ≠ 0 then W.CREATE_ALWAYS
      else if oflag &&& P.O_EXCL ≠ 0 then W.CREATE_NEW
      else W.OPEN_EXISTING := by
  unfold create_type
  by_cases h : oflag &&& (P.O_CREAT ||| P.O_TRUNC) = 0
  · have hd := h
    rw [Nat.and_or_distrib_left] at hd
    have hc := or_eq_zero_left _ _ hd
    have ht := or_eq_zero_right _ _ hd
    simp [h, hc, ht, Nat.and_or_distrib_left]
  · have hor : oflag &&& P.O_CREAT ≠ 0 ∨ oflag &&& P.O_TRUNC ≠ 0 := by
      by_contra hn
      push_neg at hn
      apply h
      rw [Nat.and_or_distrib_left, hn.1, hn.2]
      rfl
    simp [h, hor]

/-- C1: on Windows, with `O_CREAT` alone the code derives `CREATE_ALWAYS`
where the precedence table gives `OPEN_ALWAYS`, with `O_TRUNC` alone it
derives `CREATE_ALWAYS` where the table gives `TRUNCATE_EXISTING`, and with
`O_CREAT | O_EXCL` it derives `CREATE_ALWAYS` where the table gives
`CREATE_NEW`. -/
theorem create_type_single_flag :
    create_type windows winapi windows.O_CREAT = winapi.CREATE_ALWAYS ∧
    create_type_spec windows winapi windows.O_CREAT = winapi.OPEN_ALWAYS ∧
    create_type windows winapi windows.O_TRUNC = winapi.CREATE_ALWAYS ∧
    create_type_spec windows winapi windows.O_TRUNC = winapi.TRUNCATE_EXISTING ∧
    create_type windows winapi (windows.O_CREAT ||| windows.O_EXCL) = winapi.CREATE_ALWAYS ∧
    create_type_spec windows winapi (windows.O_CREAT ||| windows.O_EXCL) = winapi.CREATE_NEW ∧
    winapi.CREATE_ALWAYS ≠ winapi.OPEN_ALWAYS ∧
    winapi.CREATE_ALWAYS ≠ winapi.TRUNCATE_EXISTING ∧
    winapi.CREATE_ALWAYS ≠ winapi.CREATE_NEW := by
  decide

/-- C2: on Windows, with the read-write access mode `O_RDWR` (the flags of
mode `r+`) the code derives `GENERIC_READ` alone, where the specification
gives `GENERIC_READ | GENERIC_WRITE`. -/
theorem flags_access_rdwr :
    mode_access windows ['r', '+'] = some windows.O_RDWR ∧
    flags_access windows winapi windows.O_RDWR = winapi.GENERIC_READ ∧
    flags_access_spec windows winapi windows.O_RDWR =
      winapi.GENERIC_READ ||| winapi.GENERIC_WRITE ∧
    winapi.GENERIC_READ ≠ winapi.GENERIC_READ ||| winapi.GENERIC_WRITE := by
  decide

/-- C10: on Windows, the flags derived for mode `a` are
`O_CREAT | O_WRONLY | O_APPEND`, and for them the code selects
`CREATE_ALWAYS`, which truncates an existing file, where the precedence table
gives `OPEN_ALWAYS`. -/
theorem append_mode_create_type :
    mode_access windows ['a'] =
      some (windows.O_CREAT ||| windows.O_WRONLY ||| windows.O_APPEND) ∧
    create_type windows winapi (windows.O_CREAT ||| windows.O_WRONLY ||| windows.O_APPEND) =
      winapi.CREATE_ALWAYS ∧
    create_type_spec windows winapi (windows.O_CREAT ||| windows.O_WRONLY ||| windows.O_APPEND) =
      winapi.OPEN_ALWAYS ∧
    winapi.CREATE_ALWAYS ≠ winapi.OPEN_ALWAYS := by
  decide

/-! ## The call sequence of `win32_open` (lines 61-87) -/

theorem sys_trace (env : Env) (s : State) (c : Call) :
    (sys env s c).2.trace = s.trace ++ [(c, (sys env s c).1)] := rfl

/-- The code at `fallback` makes the narrow create call once, adapts its
handle, closes the handle if that gave `-1`, and returns the descriptor. -/
theorem win32_open_fallback_events (P : Platform) (W : WinAPI) (env : Env) (s : State)
    (filename_utf8 : List Nat) (oflag : Nat) :
    ∃ h fd rest,
      (win32_open_fallback P W env s filename_utf8 oflag).2.trace = s.trace ++
        ([(.CreateFileA filename_utf8 (flags_access P W oflag) (flags_share W) 0
            (create_type P W oflag) 0 0, h),
          (._open_osfhandle h oflag, fd)] ++ rest) ∧
      (win32_open_fallback P W env s filename_utf8 oflag).1 = fd ∧
      (fd ≠ -1 → rest = []) ∧ (fd = -1 → ∃ v, rest = [(.CloseHandle h, v)]) := by
  generalize hh : sys env s (.CreateFileA filename_utf8 (flags_access P W oflag) (flags_share W) 0
    (create_type P W oflag) 0 0) = h
  generalize hfd : sys env h.2 (._open_osfhandle h.1 oflag) = fd
  have hht : h.2.trace = s.trace ++ [(Call.CreateFileA filename_utf8 (flags_access P W oflag) (flags_share W) 0
      (create_type P W oflag) 0 0, h.1)] := by
    rw [← hh]; rfl
  have hfdt : fd.2.trace = h.2.trace ++ [(Call._open_osfhandle h.1 oflag, fd.1)] := by
    rw [← hfd]; rfl
  by_cases hneg : fd.1 = -1
  · refine ⟨h.1, fd.1, [(.CloseHandle h.1, (sys env fd.2 (.CloseHandle h.1)).1)], ?_, ?_,
      fun hc => absurd hneg hc, fun _ => ⟨_, rfl⟩⟩
    · simp only [win32_open_fallback, hh, hfd, if_pos hneg, sys_trace, hfdt, hht,
        List.append_assoc, List.singleton_append, List.cons_append, List.nil_append]
    · simp only [win32_open_fallback, hh, hfd, if_pos hneg]
  · refine ⟨h.1, fd.1, [], ?_, ?_, fun _ => rfl, fun hc => absurd hc hneg⟩
    · simp only [win32_open_fallback, hh, hfd, if_neg hneg, hfdt, hht,
        List.append_assoc, List.singleton_append, List.cons_append, List.nil_append,
        List.append_nil]
    · simp only [win32_open_fallback, hh, hfd, if_neg hneg]

/-- The wide-character attempt adds events to the trace, none of them a
narrow create call. -/
theorem win32_open_wide_events (P : Platform) (W : WinAPI) (env : Env) (s : State)
    (filename_utf8 : List Nat) (oflag : Nat) (filename_w num_chars : Int) :
    ∃ evs, (win32_open_wide P W env s filename_utf8 oflag filename_w num_chars).2.trace =
        s.trace ++ evs ∧ narrow_attempts evs = 0 := by
  generalize hc : sys env s (.MultiByteToWideChar W.CP_UTF8 0 filename_utf8 (-1) filename_w
    num_chars) = c
  generalize hh : sys env c.2 (.CreateFileW filename_w (flags_access P W oflag) (flags_share W) 0
    (create_type P W oflag) 0 0) = h
  generalize hf : sys env h.2 (.av_freep filename_w) = f
  generalize hfd : sys env f.2 (._open_osfhandle h.1 oflag) = fd
  have hct : c.2.trace = s.trace ++ [(Call.MultiByteToWideChar W.CP_UTF8 0 filename_utf8 (-1) filename_w num_chars, c.1)] := by
    rw [← hc]; rfl
  have hht : h.2.trace = c.2.trace ++ [(Call.CreateFileW filename_w (flags_access P W oflag) (flags_share W) 0
      (create_type P W oflag) 0 0, h.1)] := by
    rw [← hh]; rfl
  have hft : f.2.trace = h.2.trace ++ [(Call.av_freep filename_w, f.1)] := by
    rw [← hf]; rfl
  have hfdt : fd.2.trace = f.2.trace ++ [(Call._open_osfhandle h.1 oflag, fd.1)] := by
    rw [← hfd]; rfl
  by_cases hneg : fd.1 = -1
  · refine ⟨[(Call.MultiByteToWideChar W.CP_UTF8 0 filename_utf8 (-1) filename_w num_chars, c.1), (Call.CreateFileW filename_w (flags_access P W oflag) (flags_share W) 0
      (create_type P W oflag) 0 0, h.1), (Call.av_freep filename_w, f.1),
      (Call._open_osfhandle h.1 oflag, fd.1), (.CloseHandle h.1, (sys env fd.2 (.CloseHandle h.1)).1)], ?_, ?_⟩
    · simp only [win32_open_wide, hc, hh, hf, hfd, if_pos hneg, sys_trace, hfdt, hft, hht, hct,
        List.append_assoc, List.singleton_append, List.cons_append, List.nil_append]
    · simp [narrow_attempts, is_CreateFileA]
  · refine ⟨[(Call.MultiByteToWideChar W.CP_UTF8 0 filename_utf8 (-1) filename_w num_chars, c.1), (Call.CreateFileW filename_w (flags_access P W oflag) (flags_share W) 0
      (create_type P W oflag) 0 0, h.1), (Call.av_freep filename_w, f.1),
      (Call._open_osfhandle h.1 oflag, fd.1)], ?_, ?_⟩
    · simp only [win32_open_wide, hc, hh, hf, hfd, if_neg hneg, hfdt, hft, hht, hct,
        List.append_assoc, List.singleton_append, List.cons_append, List.nil_append]
    · simp [narrow_attempts, is_CreateFileA]

/-- The code at `fallback` appends events, none of them an `fcntl`, among
them the `_open_osfhandle` with the caller's flags that gave the result. -/
theorem win32_open_fallback_shape (P : Platform) (W : WinAPI) (env : Env) (s : State)
    (filename_utf8 : List Nat) (oflag : Nat) :
    ∃ evs h, (win32_open_fallback P W env s filename_utf8 oflag).2.trace = s.trace ++ evs ∧
      (∀ e ∈ evs, is_fcntl e.1 = false) ∧
      (Call._open_osfhandle h oflag, (win32_open_fallback P W env s filename_utf8 oflag).1)
        ∈ evs := by
  obtain ⟨h, fd, rest, ht, hr, h1, h2⟩ := win32_open_fallback_events P W env s filename_utf8 oflag
  refine ⟨_, h, ht, ?_, ?_⟩
  · intro e he
    by_cases hfd : fd = -1
    · obtain ⟨v, hv⟩ := h2 hfd
      rw [hv] at he
      simp only [List.cons_append, List.nil_append, List.mem_cons, List.mem_singleton,
        List.not_mem_nil, or_false] at he
      rcases he with he | he | he <;> rw [he] <;> rfl
    · rw [h1 hfd] at he
      simp only [List.append_nil, List.mem_cons, List.mem_singleton, List.not_mem_nil,
        or_false] at he
      rcases he with he | he <;> rw [he] <;> rfl
  · rw [hr]
    simp

/-- The wide-character attempt appends events, none of them an `fcntl`,
among them the `_open_osfhandle` with the caller's flags that gave the
result. -/
theorem win32_open_wide_shape (P : Platform) (W : WinAPI) (env : Env) (s : State)
    (filename_utf8 : List Nat) (oflag : Nat) (filename_w num_chars : Int) :
    ∃ evs h, (win32_open_wide P W env s filename_utf8 oflag filename_w num_chars).2.trace =
        s.trace ++ evs ∧
      (∀ e ∈ evs, is_fcntl e.1 = false) ∧
      (Call._open_osfhandle h oflag,
        (win32_open_wide P W env s filename_utf8 oflag filename_w num_chars).1) ∈ evs := by
  generalize hc : sys env s (.MultiByteToWideChar W.CP_UTF8 0 filename_utf8 (-1) filename_w
    num_chars) = c
  generalize hh : sys env c.2 (.CreateFileW filename_w (flags_access P W oflag) (flags_share W) 0
    (create_type P W oflag) 0 0) = h
  generalize hf : sys env h.2 (.av_freep filename_w) = f
  generalize hfd : sys env f.2 (._open_osfhandle h.1 oflag) = fd
  have hct : c.2.trace = s.trace ++ [(Call.MultiByteToWideChar W.CP_UTF8 0 filename_utf8 (-1) filename_w num_chars, c.1)] := by
    rw [← hc]; rfl
  have hht : h.2.trace = c.2.trace ++ [(Call.CreateFileW filename_w (flags_access P W oflag) (flags_share W) 0
      (create_type P W oflag) 0 0, h.1)] := by
    rw [← hh]; rfl
  have hft : f.2.trace = h.2.trace ++ [(Call.av_freep filename_w, f.1)] := by
    rw [← hf]; rfl
  have hfdt : fd.2.trace = f.2.trace ++ [(Call._open_osfhandle h.1 oflag, fd.1)] := by
    rw [← hfd]; rfl
  by_cases hneg : fd.1 = -1
  · refine ⟨[(Call.MultiByteToWideChar W.CP_UTF8 0 filename_utf8 (-1) filename_w num_chars, c.1), (Call.CreateFileW filename_w (flags_access P W oflag) (flags_share W) 0
      (create_type P W oflag) 0 0, h.1), (Call.av_freep filename_w, f.1),
      (Call._open_osfhandle h.1 oflag, fd.1), (.CloseHandle h.1, (sys env fd.2 (.CloseHandle h.1)).1)], h.1, ?_, ?_, ?_⟩
    · simp only [win32_open_wide, hc, hh, hf, hfd, if_pos hneg, sys_trace, hfdt, hft, hht, hct,
        List.append_assoc, List.singleton_append, List.cons_append, List.nil_append]
    · intro e he
      simp only [List.mem_cons, List.mem_singleton, List.not_mem_nil, or_false] at he
      rcases he with he | he | he | he | he <;> rw [he] <;> rfl
    · simp only [win32_open_wide, hc, hh, hf, hfd, if_pos hneg]
      simp
  · refine ⟨[(Call.MultiByteToWideChar W.CP_UTF8 0 filename_utf8 (-1) filename_w num_chars, c.1), (Call.CreateFileW filename_w (flags_access P W oflag) (flags_share W) 0
      (create_type P W oflag) 0 0, h.1), (Call.av_freep filename_w, f.1),
      (Call._open_osfhandle h.1 oflag, fd.1)], h.1, ?_, ?_, ?_⟩
    · simp only [win32_open_wide, hc, hh, hf, hfd, if_neg hneg, hfdt, hft, hht, hct,
        List.append_assoc, List.singleton_append, List.cons_append, List.nil_append]
    · intro e he
      simp only [List.mem_cons, List.mem_singleton, List.not_mem_nil, or_false] at he
      rcases he with he | he | he | he <;> rw [he] <;> rfl
    · simp only [win32_open_wide, hc, hh, hf, hfd, if_neg hneg]
      simp

/-- A run of `win32_open` appends events, none of them an `fcntl`; when the
result is not `-1` it was given by an `_open_osfhandle` among them, called
with the caller's flags. -/
theorem win32_open_shape (P : Platform) (W : WinAPI) (env : Env) (s : State)
    (filename_utf8 : List Nat) (oflag pmode : Nat) :
    ∃ evs, (win32_open P W env s filename_utf8 oflag pmode).2.trace = s.trace ++ evs ∧
      (∀ e ∈ evs, is_fcntl e.1 = false) ∧
      ((win32_open P W env s filename_utf8 oflag pmode).1 ≠ -1 →
        ∃ h, (Call._open_osfhandle h oflag, (win32_open P W env s filename_utf8 oflag pmode).1)
          ∈ evs) := by
  have hfb : ∀ st : State, ∀ pre, st.trace = s.trace ++ pre →
      (∀ e ∈ pre, is_fcntl e.1 = false) →
      ∃ evs, (win32_open_fallback P W env st filename_utf8 oflag).2.trace = s.trace ++ evs ∧
        (∀ e ∈ evs, is_fcntl e.1 = false) ∧
        ((win32_open_fallback P W env st filename_utf8 oflag).1 ≠ -1 →
          ∃ h, (Call._open_osfhandle h oflag,
            (win32_open_fallback P W env st filename_utf8 oflag).1) ∈ evs) := by
    intro st pre hst hpre
    obtain ⟨evs, h, ht, hnf, hmem⟩ := win32_open_fallback_shape P W env st filename_utf8 oflag
    refine ⟨pre ++ evs, by rw [ht, hst, List.append_assoc], ?_, fun _ => ⟨h, ?_⟩⟩
    · intro e he
      rcases List.mem_append.mp he with he | he
      · exact hpre e he
      · exact hnf e he
    · exact List.mem_append_right _ hmem
  have hn1 : ∀ e ∈ [(Call.MultiByteToWideChar W.CP_UTF8 W.MB_ERR_INVALID_CHARS filename_utf8
      (-1) NULL 0, (sys env s (Call.MultiByteToWideChar W.CP_UTF8 W.MB_ERR_INVALID_CHARS filename_utf8
      (-1) NULL 0)).1)],
      is_fcntl e.1 = false := by
    intro e he
    rw [List.mem_singleton.mp he]
    rfl
  simp only [win32_open]
  split_ifs with hn ha hret
  · exact hfb _ _ (sys_trace env s _) hn1
  · exact ⟨_, by simp only [sys_trace, List.append_assoc]; rfl, by
      intro e he
      simp only [List.singleton_append, List.mem_cons, List.mem_singleton, List.not_mem_nil,
        or_false] at he
      rcases he with he | he <;> rw [he] <;> rfl, fun h => absurd rfl h⟩
  · obtain ⟨evs, h, hw, hnf, hmem⟩ := win32_open_wide_shape P W env
      (sys env (sys env s (Call.MultiByteToWideChar W.CP_UTF8 W.MB_ERR_INVALID_CHARS filename_utf8
      (-1) NULL 0)).2
        (Call.av_mallocz (W.sizeof_wchar_t * (sys env s (Call.MultiByteToWideChar W.CP_UTF8 W.MB_ERR_INVALID_CHARS filename_utf8
      (-1) NULL 0)).1))).2
      filename_utf8 oflag
      (sys env (sys env s (Call.MultiByteToWideChar W.CP_UTF8 W.MB_ERR_INVALID_CHARS filename_utf8
      (-1) NULL 0)).2
        (Call.av_mallocz (W.sizeof_wchar_t * (sys env s (Call.MultiByteToWideChar W.CP_UTF8 W.MB_ERR_INVALID_CHARS filename_utf8
      (-1) NULL 0)).1))).1
      (sys env s (Call.MultiByteToWideChar W.CP_UTF8 W.MB_ERR_INVALID_CHARS filename_utf8
      (-1) NULL 0)).1
    refine ⟨_, by rw [hw]; simp only [sys_trace, List.append_assoc]; rfl, ?_, fun _ => ⟨h, ?_⟩⟩
    · intro e he
      simp only [List.singleton_append, List.mem_cons, List.mem_append] at he
      rcases he with he | he | he
      · rw [he]; rfl
      · rw [he]; rfl
      · exact hnf e he
    · exact List.mem_append_right _ (List.mem_append_right _ hmem)
  · obtain ⟨evs, h, hw, hnf, _⟩ := win32_open_wide_shape P W env
      (sys env (sys env s (Call.MultiByteToWideChar W.CP_UTF8 W.MB_ERR_INVALID_CHARS filename_utf8
      (-1) NULL 0)).2
        (Call.av_mallocz (W.sizeof_wchar_t * (sys env s (Call.MultiByteToWideChar W.CP_UTF8 W.MB_ERR_INVALID_CHARS filename_utf8
      (-1) NULL 0)).1))).2
      filename_utf8 oflag
      (sys env (sys env s (Call.MultiByteToWideChar W.CP_UTF8 W.MB_ERR_INVALID_CHARS filename_utf8
      (-1) NULL 0)).2
        (Call.av_mallocz (W.sizeof_wchar_t * (sys env s (Call.MultiByteToWideChar W.CP_UTF8 W.MB_ERR_INVALID_CHARS filename_utf8
      (-1) NULL 0)).1))).1
      (sys env s (Call.MultiByteToWideChar W.CP_UTF8 W.MB_ERR_INVALID_CHARS filename_utf8
      (-1) NULL 0)).1
    refine hfb _ _ (by rw [hw]; simp only [sys_trace, List.append_assoc]; rfl) ?_
    intro e he
    simp only [List.singleton_append, List.mem_cons, List.mem_append] at he
    rcases he with he | he | he
    · rw [he]; rfl
    · rw [he]; rfl
    · exact hnf e he

/-- C9: when the buffer allocation does not fail, the number of narrow create
calls in a run of `win32_open` is one if the conversion query returned a
non-positive length or the wide attempt gave `-1` without `O_CREAT`, and zero
otherwise. In particular, when the conversion succeeds, the wide attempt
gives `-1` and `O_CREAT` is set, `-1` is returned without a narrow call. -/
theorem win32_open_fallback_iff (P : Platform) (W : WinAPI) (env : Env) (s : State)
    (filename_utf8 : List Nat) (oflag pmode : Nat) :
    let n := sys env s (.MultiByteToWideChar W.CP_UTF8 W.MB_ERR_INVALID_CHARS filename_utf8 (-1)
      NULL 0)
    let a := sys env n.2 (.av_mallocz (W.sizeof_wchar_t * n.1))
    let w := win32_open_wide P W env a.2 filename_utf8 oflag a.1 n.1
    let r := win32_open P W env s filename_utf8 oflag pmode
    (0 < n.1 → a.1 ≠ NULL) →
    narrow_attempts (new_events s r) =
      (if n.1 ≤ 0 ∨ (w.1 = -1 ∧ oflag &&& P.O_CREAT = 0) then 1 else 0) ∧
    (0 < n.1 → w.1 = -1 → oflag &&& P.O_CREAT ≠ 0 →
      r.1 = -1 ∧ narrow_attempts (new_events s r) = 0) := by
  intro n a w r halloc
  have hnt : n.2.trace = s.trace ++ [(Call.MultiByteToWideChar W.CP_UTF8 W.MB_ERR_INVALID_CHARS filename_utf8
      (-1) NULL 0, n.1)] := rfl
  have hat : a.2.trace = n.2.trace ++ [(Call.av_mallocz (W.sizeof_wchar_t * n.1), a.1)] := rfl
  have hone : ∀ st : State, ∀ pre : List (Call × Int), st.trace = s.trace ++ pre →
      narrow_attempts pre = 0 →
      narrow_attempts (new_events s (win32_open_fallback P W env st filename_utf8 oflag)) = 1 := by
    intro st pre hst hpre
    obtain ⟨h, fd, rest, ht, _, h1, h2⟩ := win32_open_fallback_events P W env st filename_utf8 oflag
    have hrest : narrow_attempts rest = 0 := by
      by_cases hfd : fd = -1
      · obtain ⟨v, hv⟩ := h2 hfd
        simp [hv, narrow_attempts, is_CreateFileA]
      · simp [h1 hfd, narrow_attempts]
    unfold narrow_attempts at hpre hrest ⊢
    simp only [new_events, ht, hst, List.append_assoc, List.drop_left, List.countP_append, hpre,
      hrest]
    simp [is_CreateFileA]
  by_cases hn : n.1 ≤ 0
  · have hr : r = win32_open_fallback P W env n.2 filename_utf8 oflag := by
      show win32_open P W env s filename_utf8 oflag pmode = _
      simp only [win32_open]
      exact if_pos hn
    refine ⟨?_, fun hpos => absurd hn (not_le.mpr hpos)⟩
    rw [if_pos (Or.inl hn), hr]
    exact hone n.2 _ hnt (by simp [narrow_attempts, is_CreateFileA])
  · have hpos : 0 < n.1 := not_le.mp hn
    have ha : ¬ (a.1 = NULL) := halloc hpos
    obtain ⟨evs, hw, hw0⟩ := win32_open_wide_events P W env a.2 filename_utf8 oflag a.1 n.1
    have hwt : w.2.trace = s.trace ++ ([(Call.MultiByteToWideChar W.CP_UTF8 W.MB_ERR_INVALID_CHARS filename_utf8
      (-1) NULL 0, n.1),
        (Call.av_mallocz (W.sizeof_wchar_t * n.1), a.1)] ++ evs) := by
      show (win32_open_wide P W env a.2 filename_utf8 oflag a.1 n.1).2.trace = _
      rw [hw, hat, hnt]
      simp only [List.append_assoc, List.singleton_append, List.cons_append, List.nil_append]
    have hpre0 : narrow_attempts ([(Call.MultiByteToWideChar W.CP_UTF8 W.MB_ERR_INVALID_CHARS
        filename_utf8 (-1) NULL 0, n.1), (Call.av_mallocz (W.sizeof_wchar_t * n.1), a.1)] ++ evs)
        = 0 := by
      unfold narrow_attempts at hw0 ⊢
      rw [List.countP_append, hw0]
      simp [is_CreateFileA]
    by_cases hret : w.1 ≠ -1 ∨ oflag &&& P.O_CREAT ≠ 0
    · have hr : r = w := by
        show win32_open P W env s filename_utf8 oflag pmode = _
        simp only [win32_open]
        rw [if_neg hn, if_neg ha]
        exact if_pos hret
      have hcount : narrow_attempts (new_events s r) = 0 := by
        rw [hr]
        simp only [new_events, hwt, List.drop_left]
        exact hpre0
      refine ⟨?_, fun _ hw1 _ => ⟨by rw [hr]; exact hw1, hcount⟩⟩
      rw [hcount, if_neg]
      rintro (h | ⟨h1, h2⟩)
      · exact hn h
      · rcases hret with h | h
        · exact h h1
        · exact h h2
    · push_neg at hret
      have hr : r = win32_open_fallback P W env w.2 filename_utf8 oflag := by
        show win32_open P W env s filename_utf8 oflag pmode = _
        simp only [win32_open]
        rw [if_neg hn, if_neg ha]
        exact if_neg (by push_neg; exact hret)
      refine ⟨?_, fun _ _ hc => absurd hret.2 hc⟩
      rw [if_pos (Or.inr hret), hr]
      exact hone w.2 _ hwt hpre0

/-- Witness for C9: on Windows the conversion succeeds, the wide attempt
gives `-1` and `O_CREAT` is set: `-1` is returned and no narrow call is made. -/
theorem win32_open_fallback_iff_witness :
    (win32_open windows winapi env_wide_fails s0 path_x 0x100 0).1 = -1 ∧
    narrow_attempts (new_events s0 (win32_open windows winapi env_wide_fails s0 path_x 0x100 0))
      = 0 :=
  (win32_open_fallback_iff windows winapi env_wide_fails s0 path_x 0x100 0 (by decide)).2
    (by decide) (by decide) (by decide)

/-! ## `avpriv_open` and close-on-exec (lines 103-115) -/

/-- The open of line 107 appends events, none of them an `fcntl`; when its
result is not `-1`, the result was given by the call among them that creates
the descriptor, the system `open` or `_open_osfhandle`, called with the flags
handed to the open. -/
theorem descriptor_open_shape (P : Platform) (env : Env) (s : State)
    (filename : List Nat) (flags mode : Nat) :
    ∃ evs, (descriptor_open P env s filename flags mode).2.trace = s.trace ++ evs ∧
      (∀ e ∈ evs, is_fcntl e.1 = false) ∧
      ((descriptor_open P env s filename flags mode).1 ≠ -1 →
        (Call.sys_open filename flags mode, (descriptor_open P env s filename flags mode).1)
          ∈ evs ∨
        ∃ h, (Call._open_osfhandle h flags, (descriptor_open P env s filename flags mode).1)
          ∈ evs) := by
  unfold descriptor_open
  cases P.win32 with
  | none =>
    refine ⟨_, sys_trace env s _, ?_, fun _ => Or.inl (List.mem_singleton.mpr rfl)⟩
    intro e he
    rw [List.mem_singleton.mp he]
    rfl
  | some W =>
    obtain ⟨evs, ht, hnf, hmem⟩ := win32_open_shape P W env s filename flags mode
    exact ⟨evs, ht, hnf, fun h => Or.inr (hmem h)⟩

/-- Where `O_CLOEXEC` is not defined, an event that is not an `fcntl` does not
set close-on-exec. -/
theorem sets_close_on_exec_of_not_fcntl (P : Platform) (fd : Int) (e : Call × Int)
    (hnone : P.O_CLOEXEC = none) (hnf : is_fcntl e.1 = false) :
    sets_close_on_exec P fd e = false := by
  obtain ⟨c, v⟩ := e
  cases c <;> simp_all [sets_close_on_exec, has_cloexec, is_fcntl]

/-- C6: `avpriv_open` returns the descriptor that the open of line 107
returned, whatever `fcntl` returns. If the open returns `-1`, or the build
has no `fcntl`, nothing follows the open. Otherwise exactly one
`fcntl(fd, F_SETFD, FD_CLOEXEC)` follows, and when it returns `-1` exactly
one `av_log` at debug level follows it. -/
theorem avpriv_open_returns_opener_fd (P : Platform) (env : Env) (s : State)
    (filename : List Nat) (flags va : Nat) :
    let o := descriptor_open P env s filename (cloexec_flags P flags)
      (if flags &&& P.O_CREAT ≠ 0 then va % 2 ^ 32 else 0)
    let r := avpriv_open P env s filename flags va
    r.1 = o.1 ∧
    ((o.1 = -1 ∨ P.HAVE_FCNTL = false) → r.2 = o.2) ∧
    ((o.1 ≠ -1 ∧ P.HAVE_FCNTL = true) → ∃ v,
      (v ≠ -1 ∧ r.2.trace = o.2.trace ++ [(.fcntl o.1 P.F_SETFD P.FD_CLOEXEC, v)]) ∨
      (v = -1 ∧ ∃ l, r.2.trace = o.2.trace ++ [(.fcntl o.1 P.F_SETFD P.FD_CLOEXEC, v),
        (.av_log AV_LOG_DEBUG "Failed to set close on exec\n", l)])) := by
  intro o r
  have hr : r = set_cloexec P env o := rfl
  refine ⟨?_, ?_, ?_⟩
  · rw [hr]
    simp only [set_cloexec]
    split_ifs <;> rfl
  · intro h
    rw [hr]
    simp only [set_cloexec]
    rcases h with h | h
    · simp [h]
    · simp [h]
  · rintro ⟨h1, h2⟩
    refine ⟨(sys env o.2 (.fcntl o.1 P.F_SETFD P.FD_CLOEXEC)).1, ?_⟩
    rw [hr]
    simp only [set_cloexec, h2, h1, if_true, ne_eq, not_false_eq_true]
    by_cases hf : (sys env o.2 (.fcntl o.1 P.F_SETFD P.FD_CLOEXEC)).1 = -1
    · right
      refine ⟨hf, (sys env (sys env o.2 (.fcntl o.1 P.F_SETFD P.FD_CLOEXEC)).2
        (.av_log AV_LOG_DEBUG "Failed to set close on exec\n")).1, ?_⟩
      rw [if_pos hf]
      simp only [sys_trace, List.append_assoc, List.singleton_append]
    · left
      refine ⟨hf, ?_⟩
      rw [if_neg hf]
      simp only [sys_trace]

/-- Counterexample for C7: on a build with `fcntl` and without `O_CLOEXEC`,
when the open returns 3 and `fcntl` returns `-1`, `avpriv_open` succeeds with
descriptor 3 after the calls open, `fcntl`, `av_log`, and close-on-exec is
not set on it. -/
theorem avpriv_open_fcntl_failure :
    posix_legacy.HAVE_FCNTL = true ∧
    (avpriv_open posix_legacy env_fcntl_fails s0 path_x 0 0).1 = 3 ∧
    (avpriv_open posix_legacy env_fcntl_fails s0 path_x 0 0).2.trace =
      [(.sys_open path_x 0 0, 3), (.fcntl 3 2 1, -1),
       (.av_log AV_LOG_DEBUG "Failed to set close on exec\n", 0)] ∧
    close_on_exec_set posix_legacy
      (new_events s0 (avpriv_open posix_legacy env_fcntl_fails s0 path_x 0 0)) 3 = false := by
  decide

/-- C7, amended: after a successful `avpriv_open`, (1) where `O_CLOEXEC` is
defined the flags handed to the open of line 107 are the caller's flags with
`O_CLOEXEC` added, and (2) close-on-exec is set on the returned descriptor;
(3) where the build has `fcntl` and the `fcntl` call made on the descriptor
does not return `-1`, close-on-exec is set on the returned descriptor;
(4) where `O_CLOEXEC` is not defined and that `fcntl` call returns `-1`, the
descriptor is returned without close-on-exec. -/
theorem avpriv_open_close_on_exec (P : Platform) (env : Env) (s : State)
    (filename : List Nat) (flags va : Nat)
    (hok : (avpriv_open P env s filename flags va).1 ≠ -1) :
    let mode := if flags &&& P.O_CREAT ≠ 0 then va % 2 ^ 32 else 0
    let o := descriptor_open P env s filename (cloexec_flags P flags) mode
    let r := avpriv_open P env s filename flags va
    (∀ c, P.O_CLOEXEC = some c →
      r = set_cloexec P env (descriptor_open P env s filename (flags ||| c) mode)) ∧
    (P.O_CLOEXEC.isSome = true → close_on_exec_set P (new_events s r) r.1 = true) ∧
    (P.HAVE_FCNTL = true → (sys env o.2 (.fcntl o.1 P.F_SETFD P.FD_CLOEXEC)).1 ≠ -1 →
      close_on_exec_set P (new_events s r) r.1 = true) ∧
    (P.O_CLOEXEC = none → P.HAVE_FCNTL = true →
      (sys env o.2 (.fcntl o.1 P.F_SETFD P.FD_CLOEXEC)).1 = -1 →
      close_on_exec_set P (new_events s r) r.1 = false) := by
  intro mode o r
  have hr : r = set_cloexec P env o := rfl
  have hfst : r.1 = o.1 := by
    rw [hr]
    simp only [set_cloexec]
    split_ifs <;> rfl
  have ho1 : o.1 ≠ -1 := fun h => hok (hfst.trans h)
  obtain ⟨evs, hevs, hnf, hcre⟩ :=
    descriptor_open_shape P env s filename (cloexec_flags P flags) mode
  have hevs2 : o.2.trace = s.trace ++ evs := hevs
  have hext : ∃ more, new_events s r = evs ++ more := by
    simp only [new_events]
    rw [hr]
    simp only [set_cloexec]
    split_ifs
    · exact ⟨_, by simp only [sys_trace, hevs2, List.append_assoc, List.drop_left]; rfl⟩
    · exact ⟨_, by simp only [sys_trace, hevs2, List.append_assoc, List.drop_left]; rfl⟩
    · exact ⟨[], by simp only [hevs2, List.drop_left, List.append_nil]⟩
  refine ⟨?_, ?_, ?_, ?_⟩
  · intro c hc
    rw [hr]
    show set_cloexec P env (descriptor_open P env s filename (cloexec_flags P flags) mode) = _
    simp only [cloexec_flags, hc]
  · intro hsome
    obtain ⟨c, hc⟩ := Option.isSome_iff_exists.mp hsome
    obtain ⟨more, hmore⟩ := hext
    have hflags : has_cloexec P (cloexec_flags P flags) = true := by
      simp [has_cloexec, cloexec_flags, hc, or_and_self_right]
    rw [hmore, hfst]
    simp only [close_on_exec_set, List.any_eq_true]
    rcases hcre ho1 with hmem | ⟨h, hmem⟩
    · exact ⟨_, List.mem_append_left _ hmem, by simp [sets_close_on_exec, hflags]⟩
    · exact ⟨_, List.mem_append_left _ hmem, by simp [sets_close_on_exec, hflags]⟩
  · intro hf hv
    have htr : new_events s r = evs ++ [(Call.fcntl o.1 P.F_SETFD P.FD_CLOEXEC,
        (sys env o.2 (.fcntl o.1 P.F_SETFD P.FD_CLOEXEC)).1)] := by
      simp only [new_events]
      rw [hr]
      simp only [set_cloexec, hf, ho1, if_true, ne_eq, not_false_eq_true, if_neg hv, sys_trace,
        hevs2, List.append_assoc, List.drop_left]
    rw [htr, hfst]
    simp only [close_on_exec_set, List.any_eq_true]
    exact ⟨_, List.mem_append_right _ (List.mem_singleton.mpr rfl),
      by simp [sets_close_on_exec, hv]⟩
  · intro hnone hf hv
    have htr : new_events s r = evs ++ [(Call.fcntl o.1 P.F_SETFD P.FD_CLOEXEC,
        (sys env o.2 (.fcntl o.1 P.F_SETFD P.FD_CLOEXEC)).1),
        (Call.av_log AV_LOG_DEBUG "Failed to set close on exec\n",
          (sys env (sys env o.2 (.fcntl o.1 P.F_SETFD P.FD_CLOEXEC)).2
            (.av_log AV_LOG_DEBUG "Failed to set close on exec\n")).1)] := by
      simp only [new_events]
      rw [hr]
      simp only [set_cloexec, hf, ho1, if_true, ne_eq, not_false_eq_true, if_pos hv, sys_trace,
        hevs2, List.append_assoc, List.drop_left, List.singleton_append]
    rw [htr]
    simp only [close_on_exec_set, List.any_eq_false]
    intro e he
    simp only [List.mem_append, List.mem_cons, List.mem_singleton, List.not_mem_nil,
      or_false] at he
    rcases he with he | he | he
    · rw [sets_close_on_exec_of_not_fcntl P _ e hnone (hnf e he)]
      exact Bool.false_ne_true
    · rw [he]
      simp [sets_close_on_exec, hv]
    · rw [he]
      simp [sets_close_on_exec]

/-- Witness for C7, amended: on Linux, where every call succeeds with 3,
close-on-exec is set; on a build without `O_CLOEXEC`, where `fcntl` returns
`-1`, it is not. -/
theorem avpriv_open_close_on_exec_witness :
    ((avpriv_open linux (env_const 3) s0 path_x 0 0).1 ≠ -1 ∧
      close_on_exec_set linux (new_events s0 (avpriv_open linux (env_const 3) s0 path_x 0 0))
        (avpriv_open linux (env_const 3) s0 path_x 0 0).1 = true) ∧
    ((avpriv_open posix_legacy env_fcntl_fails s0 path_x 0 0).1 ≠ -1 ∧
      close_on_exec_set posix_legacy
        (new_events s0 (avpriv_open posix_legacy env_fcntl_fails s0 path_x 0 0))
        (avpriv_open posix_legacy env_fcntl_fails s0 path_x 0 0).1 = false) :=
  ⟨⟨by decide,
    (avpriv_open_close_on_exec linux (env_const 3) s0 path_x 0 0 (by decide)).2.1 (by decide)⟩,
   ⟨by decide,
    (avpriv_open_close_on_exec posix_legacy env_fcntl_fails s0 path_x 0 0 (by decide)).2.2.2
      (by decide) (by decide) (by decide)⟩⟩

end FileOpen

